import Mathlib

/-!
Verification of the Zap scraper (src/main.py) against its specification.

The file shallowly embeds the parts of `main.py` that the claims are about:

* `extract_emails_from_text` / `EMAIL_REGEX.findall` (main.py lines 52, 84-85)
* `detect_niche` and `NICHE_KEYWORDS` (lines 42-50, 108-118)
* `load_progress`, `save_progress` and the module-level ledger
  initialization block (lines 68-81, 277-289)
* the "Start fresh" reset handler and the `urls_to_process` skip loop
  (lines 314-327, 332-336)
* `scrape_single` and the `as_completed` write-back loop
  (lines 155-199, 350-365)

Python strings are modelled as `String` / `List Char`; the effectful steps
of `scrape_single` (the HTTP fetch, the Selenium fetch, the
BeautifulSoup parse) are modelled by an outcome environment, matching the
`try`/`except` structure of the source.  Machine-level details (pandas
dtypes) are modelled only where the claims depend on them: the CSV layer
records, per cell, the type-inference rules of `pd.read_csv` that matter
for the ledger columns (empty/NA tokens become NaN, `True`/`False` become
booleans, number-shaped tokens become numeric).
-/

namespace Zap

/-! ## Email extraction (main.py lines 52, 84-85)

`EMAIL_REGEX = re.compile(r"[a-zA-Z0-9._%+-]+@[a-zA-Z0-9.-]+\.[a-zA-Z]{2,}")`
`extract_emails_from_text(text)` is `list(set(EMAIL_REGEX.findall(text or "")))`.

`re.findall` scans left to right: at each position it attempts a leftmost
match (the pattern pieces are greedy with backtracking) and, on success,
resumes right after the match; on failure it advances one character.  For
this particular pattern backtracking collapses to a deterministic
procedure, embedded below:

* `[a-zA-Z0-9._%+-]+` must match the maximal run of local-part characters
  (no shorter run can be followed by `@`, because `@` is not a local-part
  character);
* after `@`, the remainder `[a-zA-Z0-9.-]+\.[a-zA-Z]{2,}` lies entirely
  inside the maximal run of domain characters (letters and `.` are domain
  characters, so nothing of the tail can extend past that run), and greedy
  backtracking selects the largest split point `t ≥ 1` at which a literal
  `.` is followed by at least two letters, the trailing letter run being
  taken maximally. -/

/-- Character class `[a-zA-Z0-9._%+-]` of the local part of `EMAIL_REGEX`. -/
def isLocalChar (c : Char) : Bool :=
  c.isAlpha || c.isDigit || c == '.' || c == '_' || c == '%' || c == '+' || c == '-'

/-- Character class `[a-zA-Z0-9.-]` of the domain part of `EMAIL_REGEX`. -/
def isDomainChar (c : Char) : Bool :=
  c.isAlpha || c.isDigit || c == '.' || c == '-'

/-- One backtracking attempt of `\.[a-zA-Z]{2,}` at split point `t` of the
maximal domain run: the character at `t` must be a literal `.` followed by
at least two letters; the matched text is everything up to `t`, the dot and
the maximal letter run (greedy `{2,}`). `t = 0` is rejected because
`[a-zA-Z0-9.-]+` needs at least one character. -/
def tryT (dom : List Char) (t : Nat) : Option (List Char) :=
  if t = 0 then none
  else
    match dom.drop t with
    | '.' :: rest =>
        let tld := rest.takeWhile Char.isAlpha
        if 2 ≤ tld.length then some (dom.take t ++ '.' :: tld) else none
    | _ => none

/-- Greedy backtracking of `[a-zA-Z0-9.-]+\.[a-zA-Z]{2,}` over the maximal
domain run: the largest viable split point wins. -/
def domainMatch (dom : List Char) : Option (List Char) :=
  (List.range dom.length).reverse.findSome? (tryT dom)

/-- Attempt of the whole `EMAIL_REGEX` at the head of `cs`; on success,
returns the matched characters and the remainder of the input right after
the match (where `re.findall` resumes). -/
def matchEmailAt (cs : List Char) : Option (List Char × List Char) :=
  let loc := cs.takeWhile isLocalChar
  match cs.drop loc.length with
  | '@' :: afterAt =>
      if loc.isEmpty then none
      else
        let dom := afterAt.takeWhile isDomainChar
        match domainMatch dom with
        | some d => some (loc ++ '@' :: d, afterAt.drop d.length)
        | none => none
  | _ => none

/-- Scanning loop of `re.findall`: try a match at the current position; on
success resume after the match, on failure advance one character.  The fuel
argument (the input length at the top call) makes the recursion structural;
every step consumes at least one character, so the fuel never runs out. -/
def findallAux : Nat → List Char → List (List Char)
  | 0, _ => []
  | fuel + 1, cs =>
      match matchEmailAt cs with
      | some (m, rest) => m :: findallAux fuel rest
      | none =>
          match cs with
          | [] => []
          | _ :: t => findallAux fuel t

/-- `EMAIL_REGEX.findall(text)` (main.py line 52). -/
def findallEmails (cs : List Char) : List (List Char) :=
  findallAux cs.length cs

/-- `extract_emails_from_text(text)` (main.py lines 84-85):
`list(set(EMAIL_REGEX.findall(text or "")))`.  Python's `set` deduplicates
with unspecified order; the model keeps first occurrences, and claims about
the result are stated up to membership. -/
def extract_emails_from_text (text : String) : List String :=
  ((findallEmails text.data).map fun l => String.mk l).dedup

/-! Concrete strings for the specification's extraction scenario
(spec.md §8: text naming one ordinary contact address and one `noreply`
address).  The addresses are assembled by concatenation. -/

/-- Ordinary contact address of the scenario. -/
def janeAddr : String := "jane.doe" ++ "@" ++ "flowers.co.uk"

/-- Operational `noreply` address of the scenario. -/
def noreplyAddr : String := "noreply" ++ "@" ++ "flowers.co.uk"

/-- Scenario input text of spec.md §8. -/
def scenarioText : String := "Contact us at " ++ janeAddr ++ " or " ++ noreplyAddr

/-! ## Niche detection (main.py lines 42-50, 108-118)

`detect_niche(text)` lowercases the text, computes for each niche in
`NICHE_KEYWORDS` (a dict, iterated in insertion order) the sum of
`lower.count(keyword)` over its keyword list, keeps only positive totals in
`scores` (again in insertion order), returns `"Other"` when `scores` is
empty and otherwise `max(scores.items(), key=lambda x: x[1])[0]` — Python's
`max` keeps the first item on ties, so the first niche reaching the
maximal positive total wins. -/

/-- ASCII lowercasing, the effect of Python `str.lower()` on the ASCII
text the keywords and claims use. -/
def asciiLower (c : Char) : Char :=
  if 'A' ≤ c ∧ c ≤ 'Z' then Char.ofNat (c.toNat + 32) else c

/-- Characters of `text.lower()`. -/
def lowerData (text : String) : List Char := text.data.map asciiLower

/-- Python `s.count(sub)` for nonempty `sub`: non-overlapping occurrences,
scanning left to right and skipping `len(sub)` after each hit.  The fuel
(the length of `s` at the top call) makes the recursion structural. -/
def pyCountAux (sub : List Char) : Nat → List Char → Nat
  | 0, _ => 0
  | _, [] => 0
  | fuel + 1, c :: t =>
      if sub.isPrefixOf (c :: t) then 1 + pyCountAux sub fuel ((c :: t).drop sub.length)
      else pyCountAux sub fuel t

/-- Python `s.count(sub)` (an empty `sub` yields `len(s) + 1`). -/
def pyCount (s sub : List Char) : Nat :=
  if sub = [] then s.length + 1 else pyCountAux sub s.length s

/-- `NICHE_KEYWORDS` (main.py lines 42-50), in declaration order.  Note the
keyword `"AI"` is written in upper case in the source. -/
def NICHE_KEYWORDS : List (String × List String) :=
  [ ("Health", ["health", "fitness", "doctor", "symptom", "recipe", "diet",
      "workout", "wellness", "medical", "clinic"]),
    ("Finance", ["finance", "bank", "loan", "investment", "trading", "stock",
      "crypto", "insurance", "money", "tax"]),
    ("Travel", ["travel", "hotel", "flight", "itinerary", "destination",
      "tour", "booking", "trip"]),
    ("Food", ["recipe", "cooking", "restaurant", "dish", "ingredients",
      "cuisine", "chef"]),
    ("Tech", ["tech", "software", "app", "developer", "coding", "AI",
      "machine learning", "gadget", "hardware"]),
    ("Ecommerce", ["shop", "cart", "buy", "product", "checkout", "store",
      "ecommerce", "sale"]),
    ("Education", ["school", "college", "course", "lesson", "tutorial",
      "study", "learn"]) ]

/-- The per-niche totals `sum(lower.count(k) for k in keywords)`, for every
niche in declaration order (before the `if cnt > 0` filter). -/
def nicheCounts (text : String) : List (String × Nat) :=
  NICHE_KEYWORDS.map fun p => (p.1, (p.2.map fun k => pyCount (lowerData text) k.data).sum)

/-- Python `max(items, key=lambda x: x[1])` over a nonempty list: a strictly
greater value replaces the current best, so ties keep the earlier item. -/
def pyMaxBySnd (best : String × Nat) : List (String × Nat) → String × Nat
  | [] => best
  | y :: ys => if y.2 > best.2 then pyMaxBySnd y ys else pyMaxBySnd best ys

/-- Tail of `detect_niche`: keep the positive totals (`if cnt > 0`), return
`"Other"` when none remain (`if not scores`), otherwise the label Python's
`max` picks. -/
def pySelect (l : List (String × Nat)) : String :=
  match l.filter fun p => 0 < p.2 with
  | [] => "Other"
  | x :: xs => (pyMaxBySnd x xs).1

/-- `detect_niche(text)` (main.py lines 108-118). -/
def detect_niche (text : String) : String :=
  pySelect (nicheCounts text)

/-- Modelled from the claim's words (C7): per-niche totals computed
case-insensitively, i.e. both the text and the keyword are lowercased
before counting.  This is the comparison point for the claim; the source's
`detect_niche` lowercases only the text. -/
def nicheCountsCI (text : String) : List (String × Nat) :=
  NICHE_KEYWORDS.map fun p =>
    (p.1, (p.2.map fun k => pyCount (lowerData text) (lowerData k)).sum)

/-- Selection rule as the claim words it: the label whose count is the
maximum, `"Other"` when all counts are zero, ties broken by the first label
reaching the maximum in the declared order. -/
def claimSelect (counts : List (String × Nat)) : String :=
  if (counts.map fun p => p.2).foldr max 0 = 0 then "Other"
  else
    ((counts.find? fun p => p.2 = (counts.map fun q => q.2).foldr max 0).map
      fun p => p.1).getD "Other"

/-- Modelled from the claim's words (C7): the label with the maximal
case-insensitive keyword count, `"Other"` when all counts are zero, ties
broken by the first label reaching the maximum in declaration order. -/
def detectNicheCI (text : String) : String :=
  claimSelect (nicheCountsCI text)

/-! ## The Work Ledger: CSV cells and rows (main.py lines 68-81, 277-289)

The ledger is a pandas DataFrame persisted with `df.to_csv` and reloaded
with `pd.read_csv`.  A cell is modelled by the value `read_csv` type
inference produces for its token:

* an empty field or an NA token (`nan`, `NaN`, `NA`, `N/A`, `NULL`,
  `null`) reads back as NaN,
* `True` / `False` read back as booleans,
* a number-shaped token (optional sign, digits, optional fractional part)
  reads back as a numeric value — modelled by the `num` constructor
  keeping the raw token, which suffices to distinguish it from the string
  it was written from,
* anything else reads back as the string itself.

Exponent forms and other rarer inference rules are not modelled; the
claims only need that the ledger's own tokens (statuses, JSON email
arrays, URLs with letters, ISO timestamps) read back as strings and that
empty strings do not. -/

/-- A pandas cell as it exists in memory. -/
inductive Cell where
  | str (s : String)
  | bool (b : Bool)
  | num (tok : String)
  | nan
deriving DecidableEq, Repr

/-- NA tokens of `pd.read_csv` (the subset relevant here). -/
def naTokens : List String := ["", "nan", "NaN", "NA", "N/A", "NULL", "null"]

/-- Number-shaped token: optional sign, then digits with at most one dot
and at least one digit overall. -/
def numberShaped (s : String) : Bool :=
  let l : List Char :=
    match s.data with
    | '-' :: t => t
    | '+' :: t => t
    | t => t
  let a := l.takeWhile fun c => c.isDigit
  match l.drop a.length with
  | [] => !a.isEmpty
  | '.' :: f => (!a.isEmpty || !f.isEmpty) && f.all fun c => c.isDigit
  | _ => false

/-- The token `df.to_csv` writes for a cell (pandas renders booleans as
`True`/`False` and NaN as the empty field; quoting of separators is a
bijection `read_csv` undoes, so the model works at token level). -/
def writeTok : Cell → String
  | .str s => s
  | .bool true => "True"
  | .bool false => "False"
  | .num t => t
  | .nan => ""

/-- The cell `pd.read_csv` infers from a token. -/
def readTok (t : String) : Cell :=
  if t ∈ naTokens then .nan
  else if t = "True" then .bool true
  else if t = "False" then .bool false
  else if numberShaped t then .num t
  else .str t

/-- One WorkItem row of the progress DataFrame, in the column order of the
initialization block (main.py lines 280-288). -/
structure Row where
  url : Cell
  emails : Cell
  is_blog : Cell
  niche : Cell
  status : Cell
  error : Cell
  last_updated : Cell
deriving DecidableEq, Repr

/-- Tokens of one CSV data line of the ledger. -/
def writeRow (r : Row) : List String :=
  [writeTok r.url, writeTok r.emails, writeTok r.is_blog, writeTok r.niche,
   writeTok r.status, writeTok r.error, writeTok r.last_updated]

/-- The row `pd.read_csv` reconstructs from one data line (the ledger
always has its seven columns; a malformed line yields nothing). -/
def readRow : List String → Option Row
  | [u, e, b, n, s, er, lu] =>
      some ⟨readTok u, readTok e, readTok b, readTok n, readTok s, readTok er, readTok lu⟩
  | _ => none

/-- The CSV body of the whole DataFrame, one token line per row. -/
def writeTable (rows : List Row) : List (List String) :=
  rows.map writeRow

/-- The DataFrame `pd.read_csv` reconstructs from a CSV body. -/
def readTable (lines : List (List String)) : List Row :=
  lines.filterMap readRow

/-- Durable state of the progress file: absent, present but unreadable
(`pd.read_csv` raised), or a readable CSV body. -/
inductive StoredFile where
  | missing
  | unreadable
  | table (lines : List (List String))
deriving DecidableEq, Repr

/-- `load_progress(path)` (main.py lines 68-74): the parsed DataFrame when
the file exists and parses, an empty DataFrame otherwise. -/
def load_progress : StoredFile → List Row
  | .missing => []
  | .unreadable => []
  | .table lines => readTable lines

/-- A fresh WorkItem row of the initialization block (main.py lines
280-288): `emails="[]"`, `is_blog=False`, empty niche/error/timestamp,
status `"pending"`. -/
def freshRow (u : String) : Row :=
  ⟨.str u, .str "[]", .bool false, .str "", .str "pending", .str "", .str ""⟩

/-- The all-pending DataFrame built from the input URL column. -/
def freshLedger (urls : List String) : List Row :=
  urls.map freshRow

/-- Module-level ledger initialization (main.py lines 277-289):
`load_progress`, and when the result is empty, build the fresh all-pending
frame and `save_progress` it immediately.  Returns the in-memory frame and
the durable state afterwards. -/
def initBlock (stored : StoredFile) (inputUrls : List String) : List Row × StoredFile :=
  let df := load_progress stored
  if df.isEmpty then
    (freshLedger inputUrls, .table (writeTable (freshLedger inputUrls)))
  else
    (df, stored)

/-- The "Start fresh (reset progress)" handler (main.py lines 314-327):
remove the durable file, rebuild the all-pending frame from the input
URLs, and `save_progress` it.  The prior ledger content is not consulted. -/
def resetHandler (_prior : StoredFile) (inputUrls : List String) : List Row × StoredFile :=
  (freshLedger inputUrls, .table (writeTable (freshLedger inputUrls)))

/-- The `urls_to_process` skip loop (main.py lines 332-336): keep every
`(index, URL)` whose row is not skipped; a row is skipped exactly when
`skip_done` is set and its status cell equals the string `'done'`. -/
def urls_to_process (skipDone : Bool) (rows : List Row) : List (Nat × Cell) :=
  rows.enum.filterMap fun p =>
    if skipDone ∧ p.2.status = Cell.str "done" then none else some (p.1, p.2.url)

/-! ## Atomic save (main.py lines 77-81)

`save_progress(df, path)` writes the CSV to `path + ".tmp"` and then
`os.replace(tmp, path)`.  The durable store is modelled as a map from file
names to contents; `os.replace` is atomic (POSIX rename).  A crash during
the `to_csv` step leaves an arbitrary prefix of the new content in the
temporary file and nothing else changed; the `os.replace` step happens
entirely or not at all. -/

/-- The file system: contents by file name. -/
def FS : Type := String → Option (List Char)

/-- Whole-file creation or overwrite of one name. -/
def writeFile (fs : FS) (p : String) (content : List Char) : FS :=
  fun q => if q = p then some content else fs q

/-- `os.replace(src, dst)`: atomically moves `src` over `dst`. -/
def osReplace (fs : FS) (src dst : String) : FS :=
  fun q => if q = src then none else if q = dst then fs src else fs q

/-- The temporary name `path + ".tmp"` of `save_progress`. -/
def tmpName (path : String) : String := path ++ ".tmp"

/-- `save_progress(df, path)` (main.py lines 77-81), completed. -/
def save_progress (fs : FS) (path : String) (content : List Char) : FS :=
  osReplace (writeFile fs (tmpName path) content) (tmpName path) path

/-- The states a crash or a concurrent reader can observe strictly before
the `os.replace` completes: the initial state, or the temporary file
holding any prefix of the new content (a partially flushed `to_csv`). -/
def duringSave (fs : FS) (path : String) (content : List Char) (s : FS) : Prop :=
  s = fs ∨ ∃ pre, pre <+: content ∧ s = writeFile fs (tmpName path) pre

/-! ## scrape_single (main.py lines 155-199) and the write-back loop

`scrape_single(url, use_selenium_fallback)` builds a result dict
initialized to status `"error"`, tries `fetch_with_requests`, falls back
to `fetch_with_selenium` when allowed and available, parses the page with
BeautifulSoup and fills the extraction fields.  The three effectful steps
are modelled by an outcome environment: each either yields a value or
raises (the `Except.error` case), matching the source's `try`/`except`
structure.  The parse outcome bundles everything drawn from the soup (the
rendered text and the `is_likely_blog` verdict, whose DOM heuristics are
outside the claims); a parse error models an exception raised in the
parse/extract block, caught by the outer `except` after the status was
set by the fetch phase and before any extraction field was filled. -/

/-- What the parse/extract block draws from the soup of a fetched page. -/
structure PageEnv where
  text : String
  blogFlag : Bool

/-- Outcomes of the effectful steps of one `scrape_single` call. -/
structure ScrapeEnv where
  requests : Except String String
  selenium : Except String String
  parse : String → Except String PageEnv

/-- The result dict of `scrape_single`. -/
structure ScrapeResult where
  url : String
  emails : List String
  is_blog : Bool
  niche : String
  status : String
  error : String
deriving DecidableEq, Repr

/-- The parse-and-extract tail of `scrape_single` (main.py lines 183-197):
enter with the status the fetch phase recorded (`"done"` after a plain
fetch, `"done (selenium)"` after the fallback); on success fill the
extraction fields and set status `"done"`, on an exception record its
message and keep everything else. -/
def parsePhase (env : ScrapeEnv) (result : ScrapeResult) (html : String)
    (fetchedStatus : String) : ScrapeResult :=
  let result := { result with status := fetchedStatus }
  match env.parse html with
  | .error msg => { result with error := msg }
  | .ok pg =>
      { result with
        emails := extract_emails_from_text (html ++ " " ++ pg.text),
        is_blog := pg.blogFlag,
        niche := detect_niche pg.text,
        status := "done" }

/-- `scrape_single(url, use_selenium_fallback)` (main.py lines 155-199),
with the module flag `SELENIUM_AVAILABLE` as a parameter.  Total: every
exception of the effectful steps is caught, exactly as in the source. -/
def scrape_single (env : ScrapeEnv) (url : String)
    (useSeleniumFallback seleniumAvailable : Bool) : ScrapeResult :=
  let result : ScrapeResult :=
    { url := url, emails := [], is_blog := false, niche := "", status := "error", error := "" }
  match env.requests with
  | .ok html => parsePhase env result html "done"
  | .error e =>
      let result := { result with error := "requests failed: " ++ e }
      if !useSeleniumFallback || !seleniumAvailable then result
      else
        match env.selenium with
        | .ok html => parsePhase env result html "done (selenium)"
        | .error e2 => { result with error := "selenium failed: " ++ e2 }

/-- JSON encoding `json.dumps(res['emails'])` of the write-back loop
(string escaping left aside: the claims never inspect this value). -/
def emailsJson (es : List String) : String :=
  "[" ++ String.intercalate ", " (es.map fun e => "\"" ++ e ++ "\"") ++ "]"

/-- One write-back of the `as_completed` loop (main.py lines 357-365): the
row at `idx` gets the result's fields and a fresh timestamp; its URL cell
is untouched. -/
def updateRow (r : Row) (res : ScrapeResult) (now : String) : Row :=
  { r with
    emails := .str (emailsJson res.emails),
    is_blog := .bool res.is_blog,
    niche := .str res.niche,
    status := .str res.status,
    error := .str res.error,
    last_updated := .str now }

/-- The write-back applied to the DataFrame (`progress_df.at[idx, …] = …`);
an index outside the frame leaves it unchanged (the loop only ever uses
indices produced by `iterrows`). -/
def applyResult (ledger : List Row) (idx : Nat) (res : ScrapeResult) (now : String) :
    List Row :=
  match ledger.get? idx with
  | some r => ledger.set idx (updateRow r res now)
  | none => ledger

/-- Cell-level side condition for an exact CSV round trip: the cell's
token survives `read_csv` type inference. -/
def cellOK : Cell → Bool
  | .str s => !(decide (s ∈ naTokens)) && s != "True" && s != "False" && !(numberShaped s)
  | .bool _ => true
  | .num t => numberShaped t && !(decide (t ∈ naTokens))
  | .nan => true

/-- Row-level side condition for an exact CSV round trip. -/
def rowOK (r : Row) : Bool :=
  cellOK r.url && cellOK r.emails && cellOK r.is_blog && cellOK r.niche &&
    cellOK r.status && cellOK r.error && cellOK r.last_updated

/-! ## Theorems for the claims -/

/-- C5, counterexample.  The `noreply` address of the specification's
scenario is returned by `extract_emails_from_text`: the source applies no
operational-mailbox filtering (and no lowercasing or punctuation
stripping) to the regex matches, so the claimed result set
`{jane-address}` is wrong and the claimed absence of `noreply` local
parts fails. -/
theorem C5_noreply_is_returned :
    noreplyAddr ∈ extract_emails_from_text scenarioText ∧
      "noreply".data <+: noreplyAddr.data := by
  decide

/-- C5, amended.  `extract_emails_from_text` returns exactly the
deduplicated `EMAIL_REGEX` matches, verbatim: on the scenario text both
the ordinary contact address and the `noreply` address are returned,
unchanged. -/
theorem C5_scenario_returns_both_addresses :
    extract_emails_from_text scenarioText = [janeAddr, noreplyAddr] := by
  decide

/-- C7, counterexample.  The keyword `"AI"` is upper case in
`NICHE_KEYWORDS` while `detect_niche` lowercases only the text, so the
count of `"AI"` is not case-insensitive: on the text `"AI"` the claimed
case-insensitive reading yields `"Tech"` (count 1, all others 0), but the
source returns `"Other"`. -/
theorem C7_AI_keyword_is_not_case_insensitive :
    detect_niche "AI" = "Other" ∧ detectNicheCI "AI" = "Tech" := by
  decide

/-- Python `max` over the positive entries of a list, as the selection
loop sees them: either the running best survives and nothing in the rest
beats it, or the first later entry that strictly beats the best (and
everything before it) wins. -/
theorem pyMaxBySnd_filter_char (best : String × Nat) (t : List (String × Nat)) :
    (pyMaxBySnd best (t.filter fun p => 0 < p.2) = best ∧ ∀ q ∈ t, q.2 ≤ best.2) ∨
      ∃ pre p suf, t = pre ++ p :: suf ∧
        pyMaxBySnd best (t.filter fun p => 0 < p.2) = p ∧ best.2 < p.2 ∧
        (∀ q ∈ pre, q.2 < p.2) ∧ (∀ q ∈ suf, q.2 ≤ p.2) := by
  induction t generalizing best with
  | nil => exact Or.inl ⟨rfl, by simp⟩
  | cons y t ih =>
    by_cases hy : 0 < y.2
    · have hfil : (y :: t).filter (fun p => 0 < p.2) = y :: t.filter fun p => 0 < p.2 := by
        simp [List.filter_cons, hy]
      by_cases hgt : y.2 > best.2
      · have hstep : pyMaxBySnd best ((y :: t).filter fun p => 0 < p.2)
            = pyMaxBySnd y (t.filter fun p => 0 < p.2) := by
          rw [hfil]; simp [pyMaxBySnd, hgt]
        rcases ih y with ⟨h1, h2⟩ | ⟨pre, p, suf, ht, h1, h2, h3, h4⟩
        · exact Or.inr ⟨[], y, t, by simp, by rw [hstep, h1], hgt, by simp, h2⟩
        · refine Or.inr ⟨y :: pre, p, suf, by simp [ht], by rw [hstep, h1], ?_, ?_, h4⟩
          · exact lt_trans hgt h2
          · intro q hq
            rcases List.mem_cons.1 hq with rfl | hq
            · exact h2
            · exact h3 q hq
      · have hstep : pyMaxBySnd best ((y :: t).filter fun p => 0 < p.2)
            = pyMaxBySnd best (t.filter fun p => 0 < p.2) := by
          rw [hfil]; simp [pyMaxBySnd, hgt]
        rcases ih best with ⟨h1, h2⟩ | ⟨pre, p, suf, ht, h1, h2, h3, h4⟩
        · refine Or.inl ⟨by rw [hstep, h1], ?_⟩
          intro q hq
          rcases List.mem_cons.1 hq with rfl | hq
          · exact le_of_not_lt hgt
          · exact h2 q hq
        · refine Or.inr ⟨y :: pre, p, suf, by simp [ht], by rw [hstep, h1], h2, ?_, h4⟩
          intro q hq
          rcases List.mem_cons.1 hq with rfl | hq
          · exact lt_of_le_of_lt (le_of_not_lt hgt) h2
          · exact h3 q hq
    · have hfil : (y :: t).filter (fun p => 0 < p.2) = t.filter fun p => 0 < p.2 := by
        simp [List.filter_cons, hy]
      have hy0 : y.2 = 0 := Nat.eq_zero_of_not_pos hy
      rcases ih best with ⟨h1, h2⟩ | ⟨pre, p, suf, ht, h1, h2, h3, h4⟩
      · refine Or.inl ⟨by rw [hfil, h1], ?_⟩
        intro q hq
        rcases List.mem_cons.1 hq with rfl | hq
        · simp [hy0]
        · exact h2 q hq
      · refine Or.inr ⟨y :: pre, p, suf, by simp [ht], by rw [hfil, h1], h2, ?_, h4⟩
        intro q hq
        rcases List.mem_cons.1 hq with rfl | hq
        · omega
        · exact h3 q hq

/-- The selection tail of `detect_niche` picks `"Other"` exactly when all
totals are zero, and otherwise the first entry reaching the maximal
total: strictly above everything before it, at least everything after. -/
theorem pySelect_first_max (l : List (String × Nat)) :
    (pySelect l = "Other" ∧ ∀ p ∈ l, p.2 = 0) ∨
      ∃ pre p suf, l = pre ++ p :: suf ∧ pySelect l = p.1 ∧ 0 < p.2 ∧
        (∀ q ∈ pre, q.2 < p.2) ∧ (∀ q ∈ suf, q.2 ≤ p.2) := by
  induction l with
  | nil => exact Or.inl ⟨rfl, by simp⟩
  | cons hd t ih =>
    by_cases hhd : 0 < hd.2
    · have hsel : pySelect (hd :: t) = (pyMaxBySnd hd (t.filter fun p => 0 < p.2)).1 := by
        simp [pySelect, List.filter_cons, hhd]
      rcases pyMaxBySnd_filter_char hd t with ⟨h1, h2⟩ | ⟨pre, p, suf, ht, h1, h2, h3, h4⟩
      · exact Or.inr ⟨[], hd, t, by simp, by rw [hsel, h1], hhd, by simp, h2⟩
      · exact Or.inr ⟨hd :: pre, p, suf, by simp [ht], by rw [hsel, h1], lt_trans hhd h2,
          by intro q hq; rcases List.mem_cons.1 hq with rfl | hq;
             exacts [h2, h3 q hq], h4⟩
    · have hhd0 : hd.2 = 0 := Nat.eq_zero_of_not_pos hhd
      have hsel : pySelect (hd :: t) = pySelect t := by
        simp [pySelect, List.filter_cons, hhd]
      rcases ih with ⟨h1, h2⟩ | ⟨pre, p, suf, ht, h1, h2, h3, h4⟩
      · refine Or.inl ⟨by rw [hsel, h1], ?_⟩
        intro q hq
        rcases List.mem_cons.1 hq with rfl | hq
        · exact hhd0
        · exact h2 q hq
      · refine Or.inr ⟨hd :: pre, p, suf, by simp [ht], by rw [hsel, h1], h2, ?_, h4⟩
        intro q hq
        rcases List.mem_cons.1 hq with rfl | hq
        · simpa [hhd0] using h2
        · exact h3 q hq

/-- C7, amended.  `detect_niche` computes each label's total as the sum of
plain substring counts of its keywords over the lowercased text (keywords
are matched verbatim, so the upper-case keyword `"AI"` can never match);
it returns `"Other"` exactly when every total is zero, and otherwise the
label of the first entry of `NICHE_KEYWORDS` (declaration order) whose
total is maximal: strictly greater than every total before it and at
least every total after it. -/
theorem C7_detect_niche_first_maximum (text : String) :
    (detect_niche text = "Other" ∧ ∀ p ∈ nicheCounts text, p.2 = 0) ∨
      ∃ pre p suf, nicheCounts text = pre ++ p :: suf ∧ detect_niche text = p.1 ∧
        0 < p.2 ∧ (∀ q ∈ pre, q.2 < p.2) ∧ (∀ q ∈ suf, q.2 ≤ p.2) :=
  pySelect_first_max (nicheCounts text)

/-- C1, counterexample.  A durable one-row ledger whose single row is
`done`, against a two-URL seed list: the row count does not match, yet the
initialization block returns the stored ledger unchanged (and does not
persist anything), not a fresh all-pending ledger — the source never
compares row counts. -/
theorem C1_row_count_mismatch_keeps_stored_ledger :
    (initBlock (.table [["a", "[]", "False", "", "done", "", ""]]) ["a", "b"]).1.length = 1 ∧
      (["a", "b"] : List String).length = 2 ∧
      (∃ r ∈ (initBlock (.table [["a", "[]", "False", "", "done", "", ""]]) ["a", "b"]).1,
        r.status ≠ Cell.str "pending") ∧
      (initBlock (.table [["a", "[]", "False", "", "done", "", ""]]) ["a", "b"]).2 =
        .table [["a", "[]", "False", "", "done", "", ""]] := by
  decide

/-- The initialization block keeps a nonempty loaded frame. -/
theorem initBlock_of_nonempty (stored : StoredFile) (inputUrls : List String)
    (h : load_progress stored ≠ []) :
    initBlock stored inputUrls = (load_progress stored, stored) := by
  have hne : (load_progress stored).isEmpty = false := by
    cases hl : load_progress stored with
    | nil => exact absurd hl h
    | cons a t => rfl
  simp [initBlock, hne]

/-- The initialization block rebuilds and persists on an empty load. -/
theorem initBlock_of_empty (stored : StoredFile) (inputUrls : List String)
    (h : load_progress stored = []) :
    initBlock stored inputUrls =
      (freshLedger inputUrls, .table (writeTable (freshLedger inputUrls))) := by
  simp [initBlock, h]

/-- C1, amended.  The initialization block returns the stored ledger
exactly when `load_progress` yields a nonempty frame (file present and
parseable, regardless of row count); otherwise — file absent, unreadable,
or parsed empty — it builds the fresh ledger (one all-pending row per seed
URL), persists it immediately, and returns it. -/
theorem C1_load_or_init_characterization (stored : StoredFile) (inputUrls : List String) :
    (load_progress stored ≠ [] → initBlock stored inputUrls = (load_progress stored, stored)) ∧
      (load_progress stored = [] →
        initBlock stored inputUrls =
          (freshLedger inputUrls, .table (writeTable (freshLedger inputUrls)))) ∧
      (∀ r ∈ freshLedger inputUrls, r.status = Cell.str "pending") ∧
      (freshLedger inputUrls).length = inputUrls.length := by
  refine ⟨initBlock_of_nonempty stored inputUrls, initBlock_of_empty stored inputUrls, ?_, ?_⟩
  · intro r hr
    rcases List.mem_map.1 hr with ⟨u, _, rfl⟩
    rfl
  · exact List.length_map inputUrls freshRow

/-- Names a concrete application of `C1_load_or_init_characterization`:
with no durable file, the block builds, persists and returns the fresh
all-pending ledger. -/
theorem C1_load_or_init_characterization_witness :
    initBlock .missing ["a"] = (freshLedger ["a"], .table (writeTable (freshLedger ["a"]))) :=
  (C1_load_or_init_characterization .missing ["a"]).2.1 (by decide)

/-- C2, counterexample.  The fresh ledger row itself does not survive the
flush/load round trip: its empty-string cells (`niche`, `error`,
`last_updated`) are written as empty CSV fields, which `pd.read_csv`
reads back as NaN, so the reloaded frame differs from the in-memory one
even though the identity matches and the row count matches. -/
theorem C2_empty_string_cells_do_not_round_trip :
    (initBlock (.table (writeTable [freshRow "a"])) ["a"]).1 ≠ [freshRow "a"] := by
  decide

theorem readTok_writeTok (c : Cell) (h : cellOK c = true) : readTok (writeTok c) = c := by
  cases c with
  | str s =>
      simp only [cellOK, Bool.and_eq_true, bne_iff_ne, ne_eq, Bool.not_eq_true',
        decide_eq_false_iff_not] at h
      obtain ⟨⟨⟨hna, ht⟩, hf⟩, hnum⟩ := h
      simp [writeTok, readTok, hna, ht, hf, hnum]
  | bool b => cases b <;> decide
  | num t =>
      simp only [cellOK, Bool.and_eq_true, Bool.not_eq_true',
        decide_eq_false_iff_not] at h
      obtain ⟨hnum, hna⟩ := h
      have ht : t ≠ "True" := by rintro rfl; exact absurd hnum (by decide)
      have hf : t ≠ "False" := by rintro rfl; exact absurd hnum (by decide)
      simp [writeTok, readTok, hna, ht, hf, hnum]
  | nan => decide

theorem readRow_writeRow (r : Row) (h : rowOK r = true) : readRow (writeRow r) = some r := by
  obtain ⟨u, e, b, n, s, er, lu⟩ := r
  simp only [rowOK, Bool.and_eq_true] at h
  obtain ⟨⟨⟨⟨⟨⟨h1, h2⟩, h3⟩, h4⟩, h5⟩, h6⟩, h7⟩ := h
  simp [writeRow, readRow, readTok_writeTok _ h1, readTok_writeTok _ h2,
    readTok_writeTok _ h3, readTok_writeTok _ h4, readTok_writeTok _ h5,
    readTok_writeTok _ h6, readTok_writeTok _ h7]

theorem readTable_writeTable (rows : List Row) (h : ∀ r ∈ rows, rowOK r = true) :
    readTable (writeTable rows) = rows := by
  induction rows with
  | nil => rfl
  | cons r t ih =>
      have hr := h r (List.mem_cons_self r t)
      have ht := fun x hx => h x (List.mem_cons_of_mem r hx)
      simp [writeTable, readTable, List.filterMap_cons, readRow_writeRow r hr]
      simpa [writeTable, readTable] using ih ht

/-- C2, amended.  `save_progress` followed by `load_progress` and the
initialization block reproduces the in-memory frame exactly, provided the
row count matches the seed list and every cell's token survives
`read_csv` type inference (string cells nonempty and not NA / boolean /
number shaped — which all ledger-written statuses, JSON arrays, URLs with
letters and ISO timestamps satisfy; empty-string cells come back as NaN
and are exactly the failing case of the counterexample). -/
theorem C2_round_trip_of_inferable_cells (ledgerRows : List Row) (inputUrls : List String)
    (hok : ∀ r ∈ ledgerRows, rowOK r = true)
    (hlen : inputUrls.length = ledgerRows.length) :
    (initBlock (.table (writeTable ledgerRows)) inputUrls).1 = ledgerRows := by
  have hload : load_progress (.table (writeTable ledgerRows)) = ledgerRows :=
    readTable_writeTable ledgerRows hok
  by_cases hemp : ledgerRows = []
  · subst hemp
    have h0 : inputUrls = [] := List.length_eq_zero.1 hlen
    subst h0
    rw [initBlock_of_empty _ _ hload]
    rfl
  · rw [initBlock_of_nonempty _ _ (by rw [hload]; exact hemp), hload]

/-- Names a concrete application of `C2_round_trip_of_inferable_cells`:
a one-row ledger whose cells all survive type inference round-trips
exactly. -/
theorem C2_round_trip_of_inferable_cells_witness :
    (initBlock
        (.table (writeTable
          [⟨.str "u1", .str "[]", .bool true, .str "Tech", .str "done", .str "boom",
            .str "2024-01-01T00:00:00"⟩]))
        ["u1"]).1 =
      [⟨.str "u1", .str "[]", .bool true, .str "Tech", .str "done", .str "boom",
        .str "2024-01-01T00:00:00"⟩] :=
  C2_round_trip_of_inferable_cells _ _ (by decide) (by decide)

/-- The temporary file of `save_progress` is a different name from the
target path (it is four characters longer). -/
theorem tmpName_ne (path : String) : path ≠ tmpName path := by
  intro h
  have hlen := congrArg String.length h
  rw [tmpName, String.length_append] at hlen
  have h4 : String.length ".tmp" = 4 := rfl
  omega

/-- C3.  Atomicity of `save_progress`: in every state observable strictly
before the `os.replace` — the initial state, or any partially flushed
temporary file — the target path still holds exactly its previous
content, and once `save_progress` completes the target path holds exactly
the new content.  A crash or concurrent reader therefore never sees a
half-written ledger, and a failed write never corrupts the durable copy. -/
theorem C3_save_progress_is_atomic (fs : FS) (path : String) (content : List Char) :
    (∀ s, duringSave fs path content s → s path = fs path) ∧
      save_progress fs path content path = some content := by
  constructor
  · intro s hs
    rcases hs with rfl | ⟨pre, _, rfl⟩
    · rfl
    · simp [writeFile, (tmpName_ne path).symm, Ne.symm (tmpName_ne path)]
      intro h
      exact absurd h (tmpName_ne path)
  · simp [save_progress, osReplace, writeFile, tmpName_ne path]

/-- Names a concrete application of `C3_save_progress_is_atomic`: a
mid-write state (half the new content in the temporary file) still shows
the old content at the ledger path, and the completed save shows the new
content. -/
theorem C3_save_progress_is_atomic_witness :
    (writeFile (fun _ => some ['o']) (tmpName "L") ['n']) "L" = some ['o'] ∧
      save_progress (fun _ => some ['o']) "L" ['n', 'w'] "L" = some ['n', 'w'] := by
  have h := C3_save_progress_is_atomic (fun _ => some ['o']) "L" ['n', 'w']
  exact ⟨h.1 _ (Or.inr ⟨['n'], by decide, rfl⟩), h.2⟩

/-- C4.  With `skip_done` set, the skip loop never dispatches a row whose
status is `'done'`; the reset handler yields an all-pending ledger and its
output is independent of whatever the prior durable state held. -/
theorem C4_skip_done_and_reset :
    (∀ (ledgerRows : List Row) (i : Nat) (u : Cell),
        (i, u) ∈ urls_to_process true ledgerRows →
          ∃ r, ledgerRows.get? i = some r ∧ r.status ≠ Cell.str "done" ∧ u = r.url) ∧
      (∀ (prior : StoredFile) (inputUrls : List String),
        ∀ r ∈ (resetHandler prior inputUrls).1, r.status = Cell.str "pending") ∧
      (∀ (p q : StoredFile) (inputUrls : List String),
        resetHandler p inputUrls = resetHandler q inputUrls) := by
  refine ⟨?_, ?_, ?_⟩
  · intro ledgerRows i u hmem
    rcases List.mem_filterMap.1 hmem with ⟨⟨j, r⟩, hjr, hf⟩
    by_cases hst : r.status = Cell.str "done"
    · simp [hst] at hf
    · simp [hst] at hf
      obtain ⟨rfl, rfl⟩ := hf
      exact ⟨r, List.mem_enum_iff_get?.1 hjr, hst, rfl⟩
  · intro prior inputUrls r hr
    rcases List.mem_map.1 hr with ⟨u, _, rfl⟩
    rfl
  · intro p q inputUrls
    rfl

/-- C9.  The skip filter compares against the exact string `'done'` only:
any row whose status is anything else — notably `'error'` — is dispatched
again even with `skip_done` set. -/
theorem C9_non_done_rows_are_redispatched (ledgerRows : List Row) (i : Nat) (r : Row)
    (hget : ledgerRows.get? i = some r) (hst : r.status ≠ Cell.str "done") :
    (i, r.url) ∈ urls_to_process true ledgerRows := by
  refine List.mem_filterMap.2 ⟨(i, r), List.mem_enum_iff_get?.2 hget, ?_⟩
  simp [hst]

/-- Names a concrete application of `C9_non_done_rows_are_redispatched`:
an `'error'` row is dispatched on resume with `skip_done` set. -/
theorem C9_non_done_rows_are_redispatched_witness :
    (0, Cell.str "u") ∈
      urls_to_process true
        [⟨.str "u", .str "[]", .bool false, .str "", .str "error", .str "x", .str "T"⟩] :=
  C9_non_done_rows_are_redispatched
    [⟨.str "u", .str "[]", .bool false, .str "", .str "error", .str "x", .str "T"⟩] 0
    ⟨.str "u", .str "[]", .bool false, .str "", .str "error", .str "x", .str "T"⟩
    (by decide) (by decide)

/-- The status a `scrape_single` call can return: `"done"` (successful
parse, or plain fetch succeeded and the parse block raised after the
status was already `"done"`), `"error"` (fetch phase failed), or
`"done (selenium)"` (the fallback fetch succeeded and the parse block
then raised before line 194 could overwrite the transient status). -/
theorem scrape_single_status_cases (env : ScrapeEnv) (url : String) (f a : Bool) :
    (scrape_single env url f a).status = "done" ∨
      (scrape_single env url f a).status = "error" ∨
      (scrape_single env url f a).status = "done (selenium)" := by
  unfold scrape_single parsePhase
  cases hr : env.requests with
  | ok html =>
      cases hp : env.parse html with
      | error msg => simp [hp]
      | ok pg => simp [hp]
  | error e =>
      by_cases hf : (!f || !a) = true
      · simp [hf]
      · simp only [hf, Bool.false_eq_true, if_false]
        cases hs : env.selenium with
        | ok html =>
            cases hp : env.parse html with
            | error msg => simp [hp]
            | ok pg => simp [hp]
        | error e2 => simp

/-- C8, counterexample.  When the plain fetch fails, the Selenium
fallback succeeds and the parse block then raises, the recorded status is
the transient string `"done (selenium)"` — neither `'done'` nor `'error'`
and outside the claimed status enum. -/
theorem C8_done_selenium_escapes_the_enum :
    (scrape_single ⟨.error "x", .ok "h", fun _ => .error "boom"⟩ "u" true true).status
        = "done (selenium)" ∧
      "done (selenium)" ∉ ["pending", "in_progress", "done", "error"] := by
  constructor
  · rfl
  · decide

/-- C8, amended.  Every write-back records a status from
`{"done", "error", "done (selenium)"}` — a processed row is never left
`'pending'` (nor `'in_progress'`), but the transient `"done (selenium)"`
can leak out of the claimed enum when the fallback fetch succeeds and the
parse block then raises. -/
theorem C8_final_status_of_processed_rows (env : ScrapeEnv) (url : String) (f a : Bool)
    (ledgerRows : List Row) (i : Nat) (now : String) (hi : i < ledgerRows.length) :
    ∃ r', (applyResult ledgerRows i (scrape_single env url f a) now).get? i = some r' ∧
      (r'.status = Cell.str "done" ∨ r'.status = Cell.str "error" ∨
        r'.status = Cell.str "done (selenium)") ∧
      r'.status ≠ Cell.str "pending" ∧ r'.status ≠ Cell.str "in_progress" := by
  obtain ⟨r0, hr0⟩ : ∃ r0, ledgerRows.get? i = some r0 :=
    ⟨ledgerRows.get ⟨i, hi⟩, List.get?_eq_get hi⟩
  refine ⟨updateRow r0 (scrape_single env url f a) now, ?_, ?_, ?_, ?_⟩
  · rw [applyResult, hr0]
    simpa using List.getElem?_set_eq_of_lt (updateRow r0 (scrape_single env url f a) now) hi
  · rcases scrape_single_status_cases env url f a with h | h | h <;>
      simp [updateRow, h]
  · rcases scrape_single_status_cases env url f a with h | h | h <;>
      simp [updateRow, h]
  · rcases scrape_single_status_cases env url f a with h | h | h <;>
      simp [updateRow, h]

/-- Names a concrete application of `C8_final_status_of_processed_rows`:
writing back a successful plain-fetch result marks the row `'done'` (or
`'error'`/`'done (selenium)'`; never `'pending'`). -/
theorem C8_final_status_of_processed_rows_witness :
    ∃ r', (applyResult [freshRow "u"] 0
        (scrape_single ⟨.ok "h", .ok "h", fun _ => .ok ⟨"", false⟩⟩ "u" false false)
        "T").get? 0 = some r' ∧
      (r'.status = Cell.str "done" ∨ r'.status = Cell.str "error" ∨
        r'.status = Cell.str "done (selenium)") ∧
      r'.status ≠ Cell.str "pending" ∧ r'.status ≠ Cell.str "in_progress" :=
  C8_final_status_of_processed_rows ⟨.ok "h", .ok "h", fun _ => .ok ⟨"", false⟩⟩ "u"
    false false [freshRow "u"] 0 "T" (by decide)

/-- A string starting with a nonempty literal prefix is not empty. -/
theorem prefix_append_ne_empty (pre t : String) (h : pre.length ≠ 0) : pre ++ t ≠ "" := by
  intro he
  have hlen := congrArg String.length he
  rw [String.length_append] at hlen
  have h0 : String.length "" = 0 := rfl
  omega

/-- C10.  `scrape_single` is total by construction (every raise point of
the source sits inside its `try`/`except`); when the plain fetch fails
and the fallback is disabled, unavailable, or also fails, the returned
record has status `"error"`, a nonempty error message, and all extraction
fields still at their initial values. -/
theorem C10_fetch_failure_yields_error_record (env : ScrapeEnv) (url : String) (f a : Bool)
    (e : String) (hreq : env.requests = .error e)
    (hfb : (!f || !a) = true ∨ ∃ e2, env.selenium = .error e2) :
    (scrape_single env url f a).status = "error" ∧
      (scrape_single env url f a).error ≠ "" ∧
      (scrape_single env url f a).emails = [] ∧
      (scrape_single env url f a).is_blog = false ∧
      (scrape_single env url f a).niche = "" := by
  by_cases hb : (!f || !a) = true
  · have hres : scrape_single env url f a =
        { url := url, emails := [], is_blog := false, niche := "",
          status := "error", error := "requests failed: " ++ e } := by
      simp [scrape_single, hreq, hb]
    rw [hres]
    exact ⟨rfl, prefix_append_ne_empty "requests failed: " e (by decide), rfl, rfl, rfl⟩
  · rcases hfb with hfb | ⟨e2, hsel⟩
    · exact absurd hfb hb
    · have hres : scrape_single env url f a =
          { url := url, emails := [], is_blog := false, niche := "",
            status := "error", error := "selenium failed: " ++ e2 } := by
        simp [scrape_single, hreq, hb, hsel]
      rw [hres]
      exact ⟨rfl, prefix_append_ne_empty "selenium failed: " e2 (by decide), rfl, rfl, rfl⟩

/-- Names a concrete application of `C10_fetch_failure_yields_error_record`:
both fetches fail, the record is a pristine error record. -/
theorem C10_fetch_failure_yields_error_record_witness :
    (scrape_single ⟨.error "x", .error "y", fun _ => .ok ⟨"", false⟩⟩ "u" true true).status
        = "error" ∧
      (scrape_single ⟨.error "x", .error "y", fun _ => .ok ⟨"", false⟩⟩ "u" true true).error
        ≠ "" ∧
      (scrape_single ⟨.error "x", .error "y", fun _ => .ok ⟨"", false⟩⟩ "u" true true).emails
        = [] ∧
      (scrape_single ⟨.error "x", .error "y", fun _ => .ok ⟨"", false⟩⟩ "u" true true).is_blog
        = false ∧
      (scrape_single ⟨.error "x", .error "y", fun _ => .ok ⟨"", false⟩⟩ "u" true true).niche
        = "" :=
  C10_fetch_failure_yields_error_record ⟨.error "x", .error "y", fun _ => .ok ⟨"", false⟩⟩
    "u" true true "x" rfl (Or.inr ⟨"y", rfl⟩)

/-- Shape of a successful `tryT`: the split point carries a literal dot
followed by the maximal letter run. -/
theorem tryT_eq_some {dom : List Char} {t : Nat} {d : List Char}
    (h : tryT dom t = some d) :
    ∃ rest, dom.drop t = '.' :: rest ∧
      d = dom.take t ++ '.' :: rest.takeWhile Char.isAlpha := by
  unfold tryT at h
  split at h
  · exact absurd h (by simp)
  · split at h
    next rest heq =>
      dsimp only at h
      split at h
      · exact ⟨rest, heq, (Option.some.inj h).symm⟩
      · exact absurd h (by simp)
    next => exact absurd h (by simp)

/-- Shape of a successful `domainMatch`. -/
theorem domainMatch_eq_some {dom d : List Char} (h : domainMatch dom = some d) :
    ∃ t rest, dom.drop t = '.' :: rest ∧
      d = dom.take t ++ '.' :: rest.takeWhile Char.isAlpha := by
  obtain ⟨t, _, ht⟩ := List.exists_of_findSome?_eq_some h
  obtain ⟨rest, h1, h2⟩ := tryT_eq_some ht
  exact ⟨t, rest, h1, h2⟩

/-- Shape of a successful `matchEmailAt`: the match is a nonempty run of
local-part characters, the `@`, and a domain part that contains a dot and
no `@`. -/
theorem matchEmailAt_eq_some {cs m rest : List Char}
    (h : matchEmailAt cs = some (m, rest)) :
    ∃ loc d, m = loc ++ '@' :: d ∧ loc ≠ [] ∧
      (∀ c ∈ loc, isLocalChar c = true) ∧ '@' ∉ d ∧ '.' ∈ d := by
  unfold matchEmailAt at h
  dsimp only at h
  split at h
  next afterAt heq =>
    split at h
    · exact absurd h (by simp)
    next hloc =>
      split at h
      next d hd =>
        obtain ⟨hm, _⟩ := Prod.mk.injEq .. ▸ Option.some.inj h
        obtain ⟨t, dtail, hdrop, hdshape⟩ := domainMatch_eq_some hd
        refine ⟨cs.takeWhile isLocalChar, d, hm.symm, ?_, ?_, ?_, ?_⟩
        · intro hnil
          rw [hnil] at hloc
          exact hloc rfl
        · intro c hc
          exact List.mem_takeWhile_imp hc
        · intro hat
          rw [hdshape] at hat
          rcases List.mem_append.1 hat with hat | hat
          · have hdom : '@' ∈ (afterAt.takeWhile isDomainChar) :=
              List.mem_of_mem_take hat
            have := List.mem_takeWhile_imp hdom
            exact absurd this (by decide)
          · rcases List.mem_cons.1 hat with hat | hat
            · exact absurd hat (by decide)
            · have := List.mem_takeWhile_imp hat
              exact absurd this (by decide)
        · rw [hdshape]
          exact List.mem_append.2 (Or.inr (List.mem_cons_self _ _))
      next => exact absurd h (by simp)
  next => exact absurd h (by simp)

/-- Every string collected by the findall loop is a `matchEmailAt` match. -/
theorem mem_findallAux {fuel : Nat} {cs m : List Char}
    (h : m ∈ findallAux fuel cs) :
    ∃ cs2 rest, matchEmailAt cs2 = some (m, rest) := by
  induction fuel generalizing cs with
  | zero => exact absurd h (by simp [findallAux])
  | succ fuel ih =>
      cases hm : matchEmailAt cs with
      | some pr =>
          obtain ⟨m0, rest0⟩ := pr
          simp only [findallAux, hm] at h
          rcases List.mem_cons.1 h with rfl | h
          · exact ⟨cs, rest0, hm⟩
          · exact ih h
      | none =>
          cases cs with
          | nil => simp [findallAux, hm] at h
          | cons c t =>
              simp only [findallAux, hm] at h
              exact ih h

/-- Dropping a prefix free of `@` stops exactly at the `@`. -/
theorem dropWhile_append_at {loc d : List Char} (h : ∀ c ∈ loc, c ≠ '@') :
    ((loc ++ '@' :: d).dropWhile fun c => c != '@') = '@' :: d := by
  induction loc with
  | nil => simp [List.dropWhile_cons]
  | cons c t ih =>
      have hc : c ≠ '@' := h c (List.mem_cons_self c t)
      have ht : ∀ x ∈ t, x ≠ '@' := fun x hx => h x (List.mem_cons_of_mem c hx)
      simp only [List.cons_append, List.dropWhile_cons, bne_iff_ne, ne_eq, hc,
        not_false_eq_true, if_true]
      exact ih ht

/-- C6.  Every string returned by `extract_emails_from_text` contains
exactly one `@`, and at least one `.` occurs after that `@`. -/
theorem C6_extracted_emails_have_one_at_then_dot (text : String) (e : String)
    (h : e ∈ extract_emails_from_text text) :
    e.data.count '@' = 1 ∧ '.' ∈ ((e.data.dropWhile fun c => c != '@').drop 1) := by
  rw [extract_emails_from_text, List.mem_dedup] at h
  obtain ⟨l, hl, rfl⟩ := List.mem_map.1 h
  obtain ⟨cs2, rest, hmat⟩ := mem_findallAux hl
  obtain ⟨loc, d, rfl, _, hlocal, hdat, hdot⟩ := matchEmailAt_eq_some hmat
  have hlocne : ∀ c ∈ loc, c ≠ '@' := by
    intro c hc hceq
    have := hlocal c hc
    rw [hceq] at this
    exact absurd this (by decide)
  have hdata : (String.mk (loc ++ '@' :: d)).data = loc ++ '@' :: d := rfl
  constructor
  · rw [hdata, List.count_append, List.count_cons_self,
      List.count_eq_zero.2 (fun hmem => hlocne '@' hmem rfl),
      List.count_eq_zero.2 hdat]
  · rw [hdata, dropWhile_append_at hlocne]
    simpa using hdot

/-- Names a concrete application of
`C6_extracted_emails_have_one_at_then_dot` on a concrete extraction. -/
theorem C6_extracted_emails_have_one_at_then_dot_witness :
    "a@b.cd".data.count '@' = 1 ∧
      '.' ∈ (("a@b.cd".data.dropWhile fun c => c != '@').drop 1) :=
  C6_extracted_emails_have_one_at_then_dot "x a@b.cd y" "a@b.cd" (by decide)

end Zap
